import Mathlib

/-!
Verification development for the sync-tasks repository.

The repository reconciles Apple Reminders with Google Tasks.  Its server side
is a TypeScript Cloud Function (webhook handler `handleRequest`, the push
operation `createTaskFromWebhook`, the detection operations
`getGoogleStatusChanges` / `getNewTasks` / `getSyncedItems` /
`updateTaskStatus` / `registerSyncedTask`, the Firestore mapping store in
`storage/firestore.ts`, and the `GoogleTasksClient` wrapper).  The client side
is a Swift CLI (`main.swift`) that drives one reconciliation pass.

This file gives a shallow embedding of those functions as pure Lean
definitions.  I/O stores (Firestore, the Google Tasks service, the local
EventKit reminder store) become explicit state values threaded through the
functions; JavaScript `undefined`/falsy semantics for optional strings are
modelled by `Option String` together with `optNonEmpty`; timestamps are `Nat`.
-/

namespace SyncTasks

/-- JavaScript truthiness for optional strings: `undefined` and `""` are
falsy.  `optNonEmpty o = some s` exactly when the JS value is truthy. -/
def optNonEmpty : Option String → Option String
  | none => none
  | some s => if s = "" then none else some s

/-- The Firestore mapping record (interface `SyncedItem` in `index.ts`):
one record per reconciled task, keyed by the Apple-side `icloudUid`. -/
structure SyncedItem where
  icloudUid : String
  googleTaskId : String
  googleListId : String
  title : String
  syncedAt : Nat
  lastModified : Nat
  completed : Bool
deriving DecidableEq, Repr

/-- The Firestore collection `synced-reminders`, modelled as an association
list from document id (the `icloudUid`) to the stored record. -/
abbrev Store := List (String × SyncedItem)

/-- `getSyncedItem` in `storage/firestore.ts`: read one document. -/
def getSyncedItem (s : Store) (uid : String) : Option SyncedItem :=
  (s.find? (fun p => p.1 == uid)).map Prod.snd

/-- Firestore `doc(key).set(item)`: keyed overwrite (upsert). -/
def storePut (s : Store) (key : String) (item : SyncedItem) : Store :=
  if s.any (fun p => p.1 == key) then
    s.map (fun p => if p.1 == key then (p.1, item) else p)
  else
    s ++ [(key, item)]

/-- `saveSyncedItem` in `storage/firestore.ts`:
`doc(item.icloudUid).set({...item, syncedAt: Timestamp.now()})`. -/
def saveSyncedItem (s : Store) (item : SyncedItem) (now : Nat) : Store :=
  storePut s item.icloudUid { item with syncedAt := now }

/-- `updateSyncedItem(uid, { completed })` in `storage/firestore.ts`: merge
update of the `completed` field plus `lastModified`; every caller in the
source has fetched the document first, so only present keys are updated. -/
def updateSyncedItemCompleted (s : Store) (uid : String) (completed : Bool)
    (now : Nat) : Store :=
  s.map (fun p =>
    if p.1 == uid then (p.1, { p.2 with completed := completed, lastModified := now })
    else p)

/-- `deleteSyncedItem` in `storage/firestore.ts`. -/
def deleteSyncedItem (s : Store) (uid : String) : Store :=
  s.filter (fun p => !(p.1 == uid))

/-- Number of records stored under a given document key. -/
def countKey (s : Store) (k : String) : Nat :=
  (s.filter (fun p => p.1 == k)).length

/-- A Google Tasks task list (`tasks_v1.Schema$TaskList`): the API marks both
fields optional. -/
structure GTaskList where
  id : Option String
  title : Option String
deriving DecidableEq, Repr

/-- A Google Tasks task (`tasks_v1.Schema$Task`); `completed` is the
completion timestamp, `status` is `"needsAction"` or `"completed"`. -/
structure GTask where
  id : Option String
  title : Option String
  notes : Option String
  due : Option String
  status : String
  completed : Option String
  deleted : Bool
deriving DecidableEq, Repr

/-- `TaskInput` in `google/tasks.ts` (create path): `title` required,
the rest optional. -/
structure TaskInput where
  title : String
  notes : Option String
  due : Option String
  completed : Option Bool
deriving DecidableEq, Repr

/-- `Partial<TaskInput>` as used by `updateTaskInList`: every field may be
absent, and only present fields are written into the patch body. -/
structure TaskPatch where
  title : Option String
  notes : Option String
  due : Option String
  completed : Option Bool
deriving DecidableEq, Repr

/-- The state of the remote Google Tasks service: its task lists, its tasks
keyed by containing list id, and a counter supplying the opaque ids the
service mints for newly created lists and tasks. -/
structure RemoteState where
  lists : List GTaskList
  tasks : List (String × GTask)
  nextId : Nat
deriving DecidableEq, Repr

def RemoteState.freshId (r : RemoteState) : String :=
  "g" ++ toString r.nextId

/-- `GoogleTasksClient.getTaskLists`. -/
def getTaskLists (r : RemoteState) : List GTaskList := r.lists

/-- `GoogleTasksClient.listTasksInList` (with `showCompleted`, `showHidden`
and `showDeleted` all true, so every stored task of the list is returned). -/
def listTasksInList (r : RemoteState) (listId : String) : List GTask :=
  (r.tasks.filter (fun p => p.1 == listId)).map Prod.snd

/-- `GoogleTasksClient.findOrCreateTaskList`: find a list whose `title`
strictly equals the name and whose id is truthy, otherwise insert a new
list with that name. -/
def findOrCreateTaskList (r : RemoteState) (name : String) :
    String × RemoteState :=
  match r.lists.find? (fun l => l.title == some name) with
  | some l =>
    match optNonEmpty l.id with
    | some i => (i, r)
    | none =>
      let lid := r.freshId
      (lid, { r with lists := r.lists ++ [⟨some lid, some name⟩],
                     nextId := r.nextId + 1 })
  | none =>
    let lid := r.freshId
    (lid, { r with lists := r.lists ++ [⟨some lid, some name⟩],
                   nextId := r.nextId + 1 })

/-- `GoogleTasksClient.createTaskInList`: insert a task; `status` is
`"completed"` when `input.completed` is truthy, else `"needsAction"`. -/
def createTaskInList (r : RemoteState) (listId : String) (input : TaskInput) :
    String × RemoteState :=
  let tid := r.freshId
  (tid, { r with
            tasks := r.tasks ++ [(listId,
              ⟨some tid, some input.title, input.notes, input.due,
               if input.completed.getD false then "completed" else "needsAction",
               none, false⟩)],
            nextId := r.nextId + 1 })

/-- `updateTaskInList`'s patch body applied to a task: only fields present in
the `Partial<TaskInput>` are written; an absent `completed` leaves `status`
untouched. -/
def applyTaskPatch (t : GTask) (p : TaskPatch) : GTask :=
  { t with
    title := match p.title with | some s => some s | none => t.title
    notes := match p.notes with | some s => some s | none => t.notes
    due := match p.due with | some s => some s | none => t.due
    status := match p.completed with
      | some b => if b then "completed" else "needsAction"
      | none => t.status }

/-- `GoogleTasksClient.updateTaskInList`: patch the task addressed by
`(listId, taskId)`. -/
def updateTaskInList (r : RemoteState) (listId taskId : String)
    (p : TaskPatch) : RemoteState :=
  { r with tasks := r.tasks.map (fun q =>
      if q.1 == listId && q.2.id == some taskId then (q.1, applyTaskPatch q.2 p)
      else q) }

/-- `GoogleTasksClient.taskExistsInList`: `tasks.get` succeeds exactly when
the `(listId, taskId)` pair addresses a stored task. -/
def taskExistsInList (r : RemoteState) (listId taskId : String) : Bool :=
  r.tasks.any (fun q => q.1 == listId && q.2.id == some taskId)

/-- Modelled from the spec: `GoogleTasksClient.getTask` is called by
`getGoogleStatusChanges` but its definition is not under `src/`; per §4.4 the
engine fetches "the current remote item by `(remoteListId, remoteItemId)`",
skipping when it cannot be found, so `getTask` returns the addressed task or
nothing. -/
def getTask (r : RemoteState) (listId taskId : String) : Option GTask :=
  (r.tasks.find? (fun q => q.1 == listId && q.2.id == some taskId)).map Prod.snd

/-- `WebhookPayload` in `index.ts`.  `title` is required by the validation
step but may arrive absent or empty, both falsy: modelled as `""`. -/
structure WebhookPayload where
  title : String
  notes : Option String
  list : Option String
  dueDate : Option String
  uid : Option String
  force : Option Bool
deriving DecidableEq, Repr

/-- `SyncResponse` in `index.ts` (without the wall-clock `timestamp`). -/
structure SyncResponse where
  success : Bool
  message : String
  taskId : Option String
deriving DecidableEq, Repr

/-- Environment of one webhook invocation: the UID `crypto.randomUUID()`
would mint, the (parameterised) validity test `!isNaN(new Date(d))` for due
dates, and `process.env.GOOGLE_TASKS_LIST_ID`. -/
structure Env where
  genUid : String
  dateValid : String → Bool
  defaultListId : String

/-- Result of one `createTaskFromWebhook` call: the HTTP-level response plus
the new store and remote state, and the ids of remote tasks created by the
call. -/
structure WebhookResult where
  response : SyncResponse
  store : Store
  remote : RemoteState
  created : List String
deriving Repr

/-- `dueDate` resolution in `createTaskFromWebhook`: a truthy `payload.dueDate`
is parsed and dropped again if invalid. -/
def resolveDue (env : Env) (payload : WebhookPayload) : Option String :=
  match optNonEmpty payload.dueDate with
  | none => none
  | some d => if env.dateValid d then some d else none

/-- `payload.list || 'Reminders'`. -/
def resolveListName (payload : WebhookPayload) : String :=
  (optNonEmpty payload.list).getD "Reminders"

/-- The unmapped branch of `createTaskFromWebhook`: resolve the target list,
create the task there, save a fresh mapping record. -/
def pushCreate (env : Env) (payload : WebhookPayload) (store : Store)
    (remote : RemoteState) (now : Nat) (uid : String) : WebhookResult :=
  let dueDate := resolveDue env payload
  let pr := findOrCreateTaskList remote (resolveListName payload)
  let cr := createTaskInList pr.2 pr.1
    ⟨payload.title, optNonEmpty payload.notes, dueDate, none⟩
  let store2 := saveSyncedItem store
    ⟨uid, cr.1, pr.1, payload.title, now, now, false⟩ now
  ⟨⟨true, "Task created successfully", some cr.1⟩, store2, cr.2, [cr.1]⟩

/-- The force branch of `createTaskFromWebhook`: re-validate the previously
mapped task, update it in place when it still exists, otherwise create a new
task; either way overwrite the mapping record. -/
def pushForce (env : Env) (payload : WebhookPayload) (store : Store)
    (remote : RemoteState) (now : Nat) (uid : String) (e : SyncedItem) :
    WebhookResult :=
  let dueDate := resolveDue env payload
  let pr := findOrCreateTaskList remote (resolveListName payload)
  let listIdForUpdate := if e.googleListId = "" then pr.1 else e.googleListId
  if taskExistsInList pr.2 listIdForUpdate e.googleTaskId then
    let r2 := updateTaskInList pr.2 listIdForUpdate e.googleTaskId
      ⟨some payload.title, optNonEmpty payload.notes, dueDate, none⟩
    let store2 := saveSyncedItem store
      ⟨uid, e.googleTaskId, pr.1, payload.title, now, now, false⟩ now
    ⟨⟨true, "Task updated successfully", some e.googleTaskId⟩, store2, r2, []⟩
  else
    let cr := createTaskInList pr.2 pr.1
      ⟨payload.title, optNonEmpty payload.notes, dueDate, none⟩
    let store2 := saveSyncedItem store
      ⟨uid, cr.1, pr.1, payload.title, now, now, false⟩ now
    ⟨⟨true, "Task created successfully", some cr.1⟩, store2, cr.2, [cr.1]⟩

/-- `createTaskFromWebhook` in `index.ts`: validate the title, resolve the
UID (`payload.uid || crypto.randomUUID()`), short-circuit as "Already synced"
when a mapping exists and no force flag is set, otherwise create or
force-update. -/
def createTaskFromWebhook (env : Env) (payload : WebhookPayload)
    (store : Store) (remote : RemoteState) (now : Nat) : WebhookResult :=
  if payload.title = "" then
    ⟨⟨false, "Missing required field: title", none⟩, store, remote, []⟩
  else
    let uid := (optNonEmpty payload.uid).getD env.genUid
    match getSyncedItem store uid, payload.force.getD false with
    | some e, false =>
      ⟨⟨true, "Already synced", some e.googleTaskId⟩, store, remote, []⟩
    | some e, true => pushForce env payload store remote now uid e
    | none, _ => pushCreate env payload store remote now uid

/-- `StatusChange` in `index.ts`. -/
structure StatusChange where
  uid : String
  title : String
  completed : Bool
  changedAt : Option String
deriving DecidableEq, Repr

/-- One iteration of the loop in `getGoogleStatusChanges`: fetch the remote
task behind a mapping record, skip when it cannot be found, and when its
completion state differs from the stored flag, update Firestore to the
remote value and record the change. -/
def googleStatusStep (r : RemoteState) (now : Nat)
    (acc : Store × List StatusChange) (entry : String × SyncedItem) :
    Store × List StatusChange :=
  match getTask r entry.2.googleListId entry.2.googleTaskId with
  | none => acc
  | some task =>
    let googleCompleted := task.status == "completed"
    if googleCompleted ≠ entry.2.completed then
      (updateSyncedItemCompleted acc.1 entry.1 googleCompleted now,
       acc.2 ++ [⟨entry.1, entry.2.title, googleCompleted,
                  if googleCompleted then optNonEmpty task.completed else none⟩])
    else acc

/-- `getGoogleStatusChanges` in `index.ts`: iterate over a snapshot of all
mapping records, reconciling Firestore to the remote completion state and
collecting the resulting change list. -/
def getGoogleStatusChanges (store : Store) (r : RemoteState) (now : Nat) :
    Store × List StatusChange :=
  store.foldl (googleStatusStep r now) (store, [])

/-- `NewTask` in `index.ts`. -/
structure NewTask where
  googleTaskId : String
  googleListId : String
  listName : String
  title : String
  notes : Option String
  due : Option String
  completed : Bool
deriving DecidableEq, Repr

/-- Inner loop body of `getNewTasks`: tasks lacking a truthy id or title are
skipped, tasks already present in the mapping set are skipped, deleted tasks
are skipped, the rest are reported as new. -/
def newTaskStep (syncedIds : List String) (lid ltitle : String)
    (acc : List NewTask) (t : GTask) : List NewTask :=
  match optNonEmpty t.id, optNonEmpty t.title with
  | some tid, some ttitle =>
    if syncedIds.contains tid then acc
    else if t.deleted then acc
    else acc ++ [⟨tid, lid, ltitle, ttitle, optNonEmpty t.notes,
                  optNonEmpty t.due, t.status == "completed"⟩]
  | _, _ => acc

/-- Outer loop body of `getNewTasks`: lists lacking a truthy id or title are
skipped; otherwise every task of the list is examined. -/
def newListStep (syncedIds : List String) (r : RemoteState)
    (acc : List NewTask) (l : GTaskList) : List NewTask :=
  match optNonEmpty l.id, optNonEmpty l.title with
  | some lid, some ltitle =>
    (listTasksInList r lid).foldl (newTaskStep syncedIds lid ltitle) acc
  | _, _ => acc

/-- `getNewTasks` in `index.ts`: build the set of already-mapped Google task
ids, then report every remaining (non-deleted, well-formed) remote task. -/
def getNewTasks (store : Store) (r : RemoteState) : List NewTask :=
  let syncedIds := store.map (fun p => p.2.googleTaskId)
  r.lists.foldl (newListStep syncedIds r) []

/-- `RegisterTaskPayload` in `index.ts`. -/
structure RegisterTaskPayload where
  googleTaskId : String
  googleListId : String
  icloudUid : String
  title : String
  completed : Bool
deriving DecidableEq, Repr

/-- `registerSyncedTask` in `index.ts`: persist a mapping record for a task
created in Google and imported to Apple. -/
def registerSyncedTask (store : Store) (p : RegisterTaskPayload) (now : Nat) :
    SyncResponse × Store :=
  (⟨true, "Task registered successfully", some p.googleTaskId⟩,
   saveSyncedItem store
     ⟨p.icloudUid, p.googleTaskId, p.googleListId, p.title, now, now,
      p.completed⟩ now)

/-- The per-item view returned by `getSyncedItems` in `index.ts`. -/
structure SyncedItemView where
  icloudUid : String
  googleTaskId : String
  googleListId : String
  title : String
  completed : Bool
deriving DecidableEq, Repr

/-- `getSyncedItems` in `index.ts`: report every mapping record with its
completion flag. -/
def getSyncedItems (store : Store) : List SyncedItemView :=
  store.map (fun p =>
    ⟨p.1, p.2.googleTaskId, p.2.googleListId, p.2.title, p.2.completed⟩)

/-- `CompleteTaskPayload` in `index.ts`. -/
structure CompleteTaskPayload where
  icloudUid : String
  completed : Bool
deriving DecidableEq, Repr

/-- `updateTaskStatus` in `index.ts`: push an Apple-side completion change to
the mapped Google task and mirror it into the mapping record; fail when no
mapping exists. -/
def updateTaskStatus (store : Store) (r : RemoteState)
    (p : CompleteTaskPayload) (now : Nat) :
    SyncResponse × Store × RemoteState :=
  match getSyncedItem store p.icloudUid with
  | none => (⟨false, "Synced item not found", none⟩, store, r)
  | some si =>
    let r2 := updateTaskInList r si.googleListId si.googleTaskId
      ⟨none, none, none, some p.completed⟩
    let store2 := updateSyncedItemCompleted store p.icloudUid p.completed now
    (⟨true, "Task marked as " ++ (if p.completed then "completed" else "incomplete"),
      some si.googleTaskId⟩, store2, r2)

/-- An inbound HTTP request as seen by `handleRequest`: method, the
`x-webhook-secret` header, the `secret` / `action` / `debug` / `listName`
query parameters, and the (untyped) JSON body read through the three payload
shapes the handler casts it to. -/
structure HttpRequest where
  method : String
  headerSecret : Option String
  querySecret : Option String
  action : Option String
  debug : Option String
  listName : Option String
  bodyWebhook : WebhookPayload
  bodyRegister : RegisterTaskPayload
  bodyStatus : CompleteTaskPayload
deriving Repr

/-- `req.headers['x-webhook-secret'] || req.query.secret`. -/
def providedSecret (req : HttpRequest) : Option String :=
  match optNonEmpty req.headerSecret with
  | some h => some h
  | none => req.querySecret

/-- The observable outcome of one `handleRequest` call: HTTP status plus the
resulting store and remote state and the remote tasks created. -/
structure HandlerResult where
  status : Nat
  store : Store
  remote : RemoteState
  created : List String
deriving Repr

/-- The business-logic dispatch of `handleRequest` (everything after the CORS
preflight and the secret check): route on method and the `action` query
parameter. -/
def dispatch (env : Env) (req : HttpRequest) (store : Store)
    (r : RemoteState) (now : Nat) : HandlerResult :=
  if req.method = "POST" then
    if req.action = some "register" then
      let res := registerSyncedTask store req.bodyRegister now
      ⟨if res.1.success then 200 else 400, res.2, r, []⟩
    else if req.action = some "status" then
      let res := updateTaskStatus store r req.bodyStatus now
      ⟨if res.1.success then 200 else 400, res.2.1, res.2.2, []⟩
    else
      let res := createTaskFromWebhook env req.bodyWebhook store r now
      ⟨if res.response.success then 200 else 400, res.store, res.remote,
       res.created⟩
  else if req.method = "GET" then
    if req.action = some "google-status" then
      ⟨200, (getGoogleStatusChanges store r now).1, r, []⟩
    else if req.action = some "new-tasks" then
      ⟨200, store, r, []⟩
    else if req.action = some "synced" then
      ⟨200, store, r, []⟩
    else
      match req.debug, optNonEmpty req.listName with
      | some "list", some n =>
        let pr := findOrCreateTaskList r n
        ⟨200, store, pr.2, []⟩
      | _, _ => ⟨200, store, r, []⟩
  else ⟨405, store, r, []⟩

/-- `handleRequest` in `index.ts`: answer `OPTIONS` preflight with 204 before
anything else; when `process.env.WEBHOOK_SECRET` is truthy, reject requests
whose provided secret differs with 401 before any business logic; otherwise
dispatch. -/
def handleRequest (env : Env) (webhookSecret : Option String)
    (req : HttpRequest) (store : Store) (r : RemoteState) (now : Nat) :
    HandlerResult :=
  if req.method = "OPTIONS" then ⟨204, store, r, []⟩
  else
    match optNonEmpty webhookSecret with
    | some ws =>
      if providedSecret req ≠ some ws then ⟨401, store, r, []⟩
      else dispatch env req store r now
    | none => dispatch env req store r now

/-- An Apple Reminders item as the Swift CLI sees it through EventKit:
`calendarItemIdentifier`, title, calendar (list) name, notes, due date and
completion flag. -/
structure Reminder where
  uid : String
  title : String
  listName : Option String
  notes : Option String
  dueDate : Option String
  isCompleted : Bool
deriving DecidableEq, Repr

/-- `SyncedReminder` in `main.swift`: one entry of the local idempotency
cache `~/.sync-tasks-state.json`. -/
structure SyncedReminder where
  googleTaskId : Option String
  syncedAt : Nat
  title : String
deriving DecidableEq, Repr

/-- `SyncState.syncedReminders` in `main.swift`. -/
abbrev SyncStateMap := List (String × SyncedReminder)

def lookupSyncState (st : SyncStateMap) (uid : String) : Option SyncedReminder :=
  (st.find? (fun p => p.1 == uid)).map Prod.snd

def putSyncState (st : SyncStateMap) (uid : String) (e : SyncedReminder) :
    SyncStateMap :=
  if st.any (fun p => p.1 == uid) then
    st.map (fun p => if p.1 == uid then (p.1, e) else p)
  else st ++ [(uid, e)]

/-- `updateReminderStatus` in `main.swift`: succeed (returning the updated
local store) only when a reminder with that identifier exists. -/
def updateReminderStatus (loc : List Reminder) (uid : String)
    (completed : Bool) : Option (List Reminder) :=
  if loc.any (fun rm => rm.uid == uid) then
    some (loc.map (fun rm =>
      if rm.uid == uid then { rm with isCompleted := completed } else rm))
  else none

/-- The loop in `main()` applying Google-side status changes to Apple
Reminders: changes whose local item cannot be found are logged and skipped;
the second component counts the applied changes. -/
def applyGoogleChanges (loc : List Reminder) (changes : List StatusChange) :
    List Reminder × Nat :=
  changes.foldl (fun acc change =>
    match updateReminderStatus acc.1 change.uid change.completed with
    | some l2 => (l2, acc.2 + 1)
    | none => acc) (loc, 0)

/-- Phase (c), remote-authoritative completion reconciliation, end to end:
the server detects divergences (mutating Firestore to the remote value) and
the CLI applies the reported changes to the local store. -/
def pullCompletionPhase (server : Store) (r : RemoteState)
    (loc : List Reminder) (now : Nat) : Store × List Reminder × Nat :=
  let pc := getGoogleStatusChanges server r now
  let ap := applyGoogleChanges loc pc.2
  (pc.1, ap.1, ap.2)

/-- Phase (d), local-authoritative completion reconciliation (step 1.5 of
`main()`): for every mapping record whose local reminder exists and whose
completion flags differ, push the Apple value through the `status` action. -/
def pushCompletionPhase (loc : List Reminder) (server : Store)
    (r : RemoteState) (now : Nat) : Store × RemoteState × Nat :=
  (getSyncedItems server).foldl (fun acc item =>
    match loc.find? (fun rm => rm.uid == item.icloudUid) with
    | none => acc
    | some rm =>
      if rm.isCompleted ≠ item.completed then
        let res := updateTaskStatus acc.1 acc.2.1
          ⟨item.icloudUid, rm.isCompleted⟩ now
        if res.1.success then (res.2.1, res.2.2, acc.2.2 + 1)
        else (res.2.1, res.2.2, acc.2.2)
      else acc) (server, r, 0)

/-- `createReminder` in `main.swift`: store a new local reminder built from
an imported Google task, EventKit minting its identifier (modelled with a
counter). -/
def createReminder (loc : List Reminder) (nt : NewTask) (uidN : Nat) :
    List Reminder × String × Nat :=
  let uid := "r" ++ toString uidN
  (loc ++ [⟨uid, nt.title, some nt.listName, nt.notes, nt.due, nt.completed⟩],
   uid, uidN + 1)

/-- Accumulator of the import loop (step 2 of `main()`). -/
structure ImportAcc where
  localStore : List Reminder
  server : Store
  imported : List String
  uidN : Nat
deriving Repr

/-- Phase (b), pull new items (step 2 of `main()`): create a local reminder
for every reported new task, register it with the server, and record its
fresh identifier in the same-pass exclusion set `importedUIDs`. -/
def importPhase (loc : List Reminder) (server : Store)
    (tasksNew : List NewTask) (uidN : Nat) (now : Nat) : ImportAcc :=
  tasksNew.foldl (fun acc nt =>
    let cr := createReminder acc.localStore nt acc.uidN
    let reg := registerSyncedTask acc.server
      ⟨nt.googleTaskId, nt.googleListId, cr.2.1, nt.title, nt.completed⟩ now
    ⟨cr.1, reg.2, acc.imported ++ [cr.2.1], cr.2.2⟩)
    ⟨loc, server, [], uidN⟩

/-- Accumulator of the push loop (step 3 of `main()`). -/
structure PushAcc where
  server : Store
  remote : RemoteState
  syncState : SyncStateMap
  pushed : List String
deriving Repr

/-- One iteration of the push loop: skip reminders just imported in this
pass, skip reminders in the local idempotency cache unless `--force`,
otherwise send the webhook (`syncReminder`) and update the cache from the
response message. -/
def pushStep (env : Env) (imported : List String) (forceSync : Bool)
    (now : Nat) (acc : PushAcc) (rm : Reminder) : PushAcc :=
  if rm.uid ∈ imported then acc
  else if !forceSync ∧ (lookupSyncState acc.syncState rm.uid).isSome then acc
  else
    let payload : WebhookPayload :=
      ⟨rm.title, rm.notes, rm.listName, rm.dueDate, some rm.uid,
       if forceSync then some true else none⟩
    let res := createTaskFromWebhook env payload acc.server acc.remote now
    let st2 :=
      if res.response.success then
        if res.response.message = "Already synced" then acc.syncState
        else if res.response.message = "Task updated successfully" then
          putSyncState acc.syncState rm.uid ⟨none, now, rm.title⟩
        else putSyncState acc.syncState rm.uid
          ⟨res.response.taskId, now, rm.title⟩
      else acc.syncState
    ⟨res.store, res.remote, st2, acc.pushed ++ [rm.uid]⟩

/-- Phase (a), push new local items (step 3 of `main()`): only incomplete
reminders are fetched (`predicateForIncompleteReminders`); `pushed` records
the reminders for which the webhook was actually invoked. -/
def pushPhase (env : Env) (loc : List Reminder) (imported : List String)
    (forceSync : Bool) (server : Store) (r : RemoteState)
    (syncState : SyncStateMap) (now : Nat) : PushAcc :=
  (loc.filter (fun rm => !rm.isCompleted)).foldl
    (pushStep env imported forceSync now) ⟨server, r, syncState, []⟩

/-- The four reconciliation phases, in the spec's lettering. -/
inductive Phase
  | pullCompletion
  | pushCompletion
  | pullNew
  | pushNew
deriving DecidableEq, Repr

/-- Everything one full pass produces. -/
structure PassResult where
  localStore : List Reminder
  server : Store
  remote : RemoteState
  syncState : SyncStateMap
  importedUIDs : List String
  pushedUIDs : List String
  trace : List Phase
deriving Repr

/-- Inputs of one full pass of `main()` in `main.swift`. -/
structure PassInput where
  env : Env
  server : Store
  remote : RemoteState
  localStore : List Reminder
  syncState : SyncStateMap
  forceSync : Bool
  resetSync : Bool
  now : Nat
  uidN : Nat

/-- One full pass of `main()` in `main.swift`, recording the order in which
the phases execute: step 1 pulls completion changes from Google, step 1.5
pushes Apple completion changes, step 2 imports new Google tasks (building
`importedUIDs`), step 3 pushes incomplete local reminders, skipping the
just-imported ones. -/
def runPass (inp : PassInput) : PassResult :=
  let t0 : List Phase := []
  let pc := pullCompletionPhase inp.server inp.remote inp.localStore inp.now
  let t1 := t0 ++ [Phase.pullCompletion]
  let pd := pushCompletionPhase pc.2.1 pc.1 inp.remote inp.now
  let t2 := t1 ++ [Phase.pushCompletion]
  let tasksNew := getNewTasks pd.1 pd.2.1
  let im := importPhase pc.2.1 pd.1 tasksNew inp.uidN inp.now
  let t3 := t2 ++ [Phase.pullNew]
  let st0 := if inp.resetSync then [] else inp.syncState
  let pa := pushPhase inp.env im.localStore im.imported inp.forceSync
    im.server pd.2.1 st0 inp.now
  let t4 := t3 ++ [Phase.pushNew]
  ⟨im.localStore, pa.server, pa.remote, pa.syncState, im.imported,
   pa.pushed, t4⟩

/-- The mapping-store mutations exposed by `storage/firestore.ts`. -/
inductive StoreOp
  | put (item : SyncedItem) (now : Nat)
  | update (uid : String) (completed : Bool) (now : Nat)
  | del (uid : String)
deriving Repr

/-- Interpret one mapping-store operation. -/
def applyOp (s : Store) (op : StoreOp) : Store :=
  match op with
  | .put item now => saveSyncedItem s item now
  | .update uid c now => updateSyncedItemCompleted s uid c now
  | .del uid => deleteSyncedItem s uid

/-- A task carries the data `getNewTasks` requires: a truthy id and title. -/
def taskKeep (t : GTask) : Bool :=
  (optNonEmpty t.id).isSome && (optNonEmpty t.title).isSome

/-- A list carries the data `getNewTasks` requires: a truthy id and title. -/
def listKeep (l : GTaskList) : Bool :=
  (optNonEmpty l.id).isSome && (optNonEmpty l.title).isSome

/-- Drop every remote list and task that lacks a truthy id or title. -/
def pruneRemote (r : RemoteState) : RemoteState :=
  { r with lists := r.lists.filter listKeep,
           tasks := r.tasks.filter (fun p => taskKeep p.2) }

/-! Concrete fixtures used by witnesses and counterexamples. -/

/-- A concrete webhook environment. -/
def envFix : Env := ⟨"generated-uid", fun _ => true, ""⟩

/-- A mapping record believed incomplete. -/
def itemFix : SyncedItem := ⟨"u1", "t1", "l1", "Buy milk", 0, 0, false⟩

/-- A mapping record believed completed. -/
def itemDoneFix : SyncedItem := ⟨"u1", "t1", "l1", "Buy milk", 0, 0, true⟩

/-- A store holding the single record `itemFix`. -/
def storeFix : Store := [("u1", itemFix)]

/-- A store holding the single record `itemDoneFix`. -/
def storeDoneFix : Store := [("u1", itemDoneFix)]

/-- The remote task behind `itemFix`, completed on the Google side. -/
def taskFix : GTask :=
  ⟨some "t1", some "Buy milk", none, none, "completed", some "2024-01-15", false⟩

/-- A remote state with one list `"Work"` (id `l1`) holding `taskFix`. -/
def remoteFix : RemoteState := ⟨[⟨some "l1", some "Work"⟩], [("l1", taskFix)], 0⟩

/-- A remote state whose only list is empty (the mapped task is gone). -/
def remoteGoneFix : RemoteState := ⟨[⟨some "l1", some "Work"⟩], [], 0⟩

/-- A webhook payload addressing `itemFix` without the force flag. -/
def payloadFix : WebhookPayload :=
  ⟨"Buy milk", none, some "Work", none, some "u1", none⟩

/-- A webhook payload addressing an unmapped uid. -/
def payloadNewFix : WebhookPayload :=
  ⟨"Fresh task", none, some "Work", none, some "u9", none⟩

/-- A webhook payload addressing `itemFix` with the force flag set. -/
def payloadForceFix : WebhookPayload :=
  ⟨"Buy milk", none, some "Work", none, some "u1", some true⟩

/-- An OPTIONS preflight request carrying a wrong secret. -/
def reqOptionsFix : HttpRequest :=
  ⟨"OPTIONS", some "wrong", none, none, none, none,
   payloadFix, ⟨"", "", "", "", false⟩, ⟨"", false⟩⟩

/-- A POST request carrying a wrong secret. -/
def reqPostFix : HttpRequest :=
  ⟨"POST", some "wrong", none, none, none, none,
   payloadFix, ⟨"", "", "", "", false⟩, ⟨"", false⟩⟩

/-- A remote state exercising the skip rules of `getNewTasks`: a task with no
id, a deleted task, a fresh task and a list with no id. -/
def remoteNewFix : RemoteState :=
  ⟨[⟨some "l1", some "Work"⟩, ⟨none, some "Broken"⟩],
   [("l1", taskFix),
    ("l1", ⟨some "t2", some "Fresh", none, none, "needsAction", none, false⟩),
    ("l1", ⟨none, some "NoId", none, none, "needsAction", none, false⟩),
    ("l1", ⟨some "t3", some "Del", none, none, "needsAction", none, true⟩)], 0⟩

/-- The new task `getNewTasks` reports for `remoteNewFix` and `storeFix`. -/
def newTaskFix : NewTask :=
  ⟨"t2", "l1", "Work", "Fresh", none, none, false⟩

/-- A pre-existing incomplete local reminder. -/
def reminderFix : Reminder := ⟨"rema", "Errand", some "Work", none, none, false⟩

/-- A full-pass input over the fixtures: one mapped record, a remote state
holding one fresh unmapped task, one unmapped local reminder. -/
def passFix : PassInput :=
  ⟨envFix, storeFix, remoteNewFix, [reminderFix], [], false, false, 5, 0⟩

/-! ## Mapping-store lemmas -/

theorem find?_map_overwrite (s : Store) (key : String) (item : SyncedItem) :
    (s.map (fun p => if p.1 == key then (p.1, item) else p)).find?
        (fun p => p.1 == key) =
      (s.find? (fun p => p.1 == key)).map (fun p => (p.1, item)) := by
  induction s with
  | nil => rfl
  | cons a t ih =>
    simp only [List.map_cons]
    by_cases ha : a.1 = key
    · simp [List.find?_cons, ha, -List.find?_map]
    · simp [List.find?_cons, ha, -List.find?_map]
      simpa [-List.find?_map] using ih

theorem any_eq_false_of_getSyncedItem_none {s : Store} {u : String}
    (h : getSyncedItem s u = none) : s.any (fun p => p.1 == u) = false := by
  simp only [getSyncedItem, Option.map_eq_none'] at h
  rw [List.find?_eq_none] at h
  simp only [List.any_eq_false]
  exact h

theorem getSyncedItem_storePut_self (s : Store) (key : String)
    (item : SyncedItem) : getSyncedItem (storePut s key item) key = some item := by
  unfold storePut getSyncedItem
  by_cases hA : s.any (fun p => p.1 == key) = true
  · rw [if_pos hA, find?_map_overwrite]
    obtain ⟨p, hp, hpk⟩ := List.any_eq_true.mp hA
    have hsome : (List.find? (fun p => p.1 == key) s).isSome = true :=
      List.find?_isSome.mpr ⟨p, hp, hpk⟩
    obtain ⟨q, hq⟩ := Option.isSome_iff_exists.mp hsome
    rw [hq]
    rfl
  · rw [if_neg hA, List.find?_append]
    have hnone : s.find? (fun p => p.1 == key) = none := by
      rw [List.find?_eq_none]
      exact List.any_eq_false.mp (Bool.eq_false_iff.mpr hA)
    rw [hnone]
    simp [List.find?_cons]

theorem find?_map_overwrite_ne (s : Store) (key k : String)
    (item : SyncedItem) (h : k ≠ key) :
    (s.map (fun p => if p.1 == key then (p.1, item) else p)).find?
        (fun p => p.1 == k) =
      s.find? (fun p => p.1 == k) := by
  induction s with
  | nil => rfl
  | cons a t ih =>
    simp only [List.map_cons]
    by_cases ha : a.1 = key
    · have hak : a.1 ≠ k := by rw [ha]; exact Ne.symm h
      simp [List.find?_cons, ha, hak, Ne.symm h, -List.find?_map]
      simpa [-List.find?_map] using ih
    · by_cases hak : a.1 = k
      · simp [List.find?_cons, ha, hak, h, -List.find?_map]
      · simp [List.find?_cons, ha, hak, -List.find?_map]
        simpa [-List.find?_map] using ih

theorem getSyncedItem_storePut_ne (s : Store) (key k : String)
    (item : SyncedItem) (h : k ≠ key) :
    getSyncedItem (storePut s key item) k = getSyncedItem s k := by
  unfold storePut getSyncedItem
  by_cases hA : s.any (fun p => p.1 == key) = true
  · rw [if_pos hA, find?_map_overwrite_ne s key k item h]
  · rw [if_neg hA, List.find?_append]
    have hone : List.find? (fun p => p.1 == k) [(key, item)] = none := by
      simp [List.find?_cons, Ne.symm h]
    rw [hone]
    simp

theorem getSyncedItem_saveSyncedItem_self (s : Store) (item : SyncedItem)
    (now : Nat) :
    getSyncedItem (saveSyncedItem s item now) item.icloudUid =
      some { item with syncedAt := now } :=
  getSyncedItem_storePut_self s item.icloudUid _

theorem countKey_map_keyfix (s : Store)
    (f : String × SyncedItem → String × SyncedItem)
    (hf : ∀ p, (f p).1 = p.1) (k : String) :
    countKey (s.map f) k = countKey s k := by
  induction s with
  | nil => rfl
  | cons a t ih =>
    simp only [List.map_cons, countKey, List.filter_cons, hf a] at *
    by_cases ha : (a.1 == k) = true
    · simp [ha, ih]
    · simp [ha, ih]

theorem countKey_append_single (s : Store) (q : String × SyncedItem)
    (k : String) :
    countKey (s ++ [q]) k = countKey s k + (if q.1 == k then 1 else 0) := by
  simp only [countKey, List.filter_append, List.length_append]
  by_cases hq : (q.1 == k) = true
  · simp [List.filter_cons, hq]
  · simp [List.filter_cons, hq]

theorem countKey_eq_zero_of_any_false {s : Store} {k : String}
    (h : s.any (fun p => p.1 == k) = false) : countKey s k = 0 := by
  simp only [countKey, List.length_eq_zero]
  rw [List.filter_eq_nil_iff]
  exact List.any_eq_false.mp h

theorem countKey_storePut_le (s : Store) (key : String) (item : SyncedItem)
    (k : String) (h : countKey s k ≤ 1) :
    countKey (storePut s key item) k ≤ 1 := by
  unfold storePut
  by_cases hA : s.any (fun p => p.1 == key) = true
  · rw [if_pos hA, countKey_map_keyfix]
    · exact h
    · intro p
      by_cases hp : (p.1 == key) = true <;> simp [hp]
  · rw [if_neg hA, countKey_append_single]
    by_cases hk : (key == k) = true
    · have : countKey s k = 0 := by
        apply countKey_eq_zero_of_any_false
        have : key = k := by simpa using hk
        rw [← this]
        exact Bool.eq_false_iff.mpr hA
      simp [hk, this]
    · simp [hk, h]

theorem countKey_update_eq (s : Store) (uid : String) (c : Bool) (now : Nat)
    (k : String) :
    countKey (updateSyncedItemCompleted s uid c now) k = countKey s k := by
  apply countKey_map_keyfix
  intro p
  by_cases hp : (p.1 == uid) = true <;> simp [hp]

theorem countKey_delete_le (s : Store) (uid : String) (k : String)
    (h : countKey s k ≤ 1) : countKey (deleteSyncedItem s uid) k ≤ 1 := by
  calc countKey (deleteSyncedItem s uid) k
      ≤ countKey s k :=
        ((List.filter_sublist s).filter _).length_le
    _ ≤ 1 := h

theorem countKey_applyOp_le (s : Store) (op : StoreOp) (k : String)
    (h : countKey s k ≤ 1) : countKey (applyOp s op) k ≤ 1 := by
  cases op with
  | put item now => exact countKey_storePut_le s item.icloudUid _ k h
  | update uid c now => rw [applyOp, countKey_update_eq]; exact h
  | del uid => exact countKey_delete_le s uid k h

theorem countKey_foldl_le (ops : List StoreOp) :
    ∀ s : Store, (∀ k, countKey s k ≤ 1) →
      ∀ k, countKey (ops.foldl applyOp s) k ≤ 1 := by
  induction ops with
  | nil => intro s hs k; exact hs k
  | cons op rest ih =>
    intro s hs k
    exact ih (applyOp s op) (fun k2 => countKey_applyOp_le s op k2 (hs k2)) k

/-- Claim C7: after any sequence of mapping-store operations starting from an
empty store, at most one record exists per `localId`; in particular the put
operation `saveSyncedItem` is an upsert keyed by `icloudUid` whose write is
subsequently readable, so storing a record for an already-mapped `localId`
never creates a second record. -/
theorem store_unique_per_localId :
    (∀ (ops : List StoreOp) (k : String),
      countKey (ops.foldl applyOp []) k ≤ 1) ∧
    (∀ (s : Store) (item : SyncedItem) (now : Nat),
      getSyncedItem (saveSyncedItem s item now) item.icloudUid =
        some { item with syncedAt := now }) := by
  constructor
  · intro ops k
    apply countKey_foldl_le
    intro k2
    simp [countKey]
  · intro s item now
    exact getSyncedItem_saveSyncedItem_self s item now

/-! ## Push-path lemmas -/

theorem createTaskFromWebhook_already (env : Env) (payload : WebhookPayload)
    (store : Store) (remote : RemoteState) (now : Nat) (u : String)
    (e : SyncedItem) (ht : payload.title ≠ "")
    (hu : optNonEmpty payload.uid = some u)
    (he : getSyncedItem store u = some e)
    (hf : payload.force.getD false = false) :
    createTaskFromWebhook env payload store remote now =
      ⟨⟨true, "Already synced", some e.googleTaskId⟩, store, remote, []⟩ := by
  simp [createTaskFromWebhook, ht, hu, he, hf]

theorem createTaskFromWebhook_new (env : Env) (payload : WebhookPayload)
    (store : Store) (remote : RemoteState) (now : Nat) (u : String)
    (ht : payload.title ≠ "") (hu : optNonEmpty payload.uid = some u)
    (hn : getSyncedItem store u = none) :
    createTaskFromWebhook env payload store remote now =
      pushCreate env payload store remote now u := by
  simp [createTaskFromWebhook, ht, hu, hn]

theorem createTaskFromWebhook_force (env : Env) (payload : WebhookPayload)
    (store : Store) (remote : RemoteState) (now : Nat) (u : String)
    (e : SyncedItem) (ht : payload.title ≠ "")
    (hu : optNonEmpty payload.uid = some u)
    (he : getSyncedItem store u = some e)
    (hf : payload.force.getD false = true) :
    createTaskFromWebhook env payload store remote now =
      pushForce env payload store remote now u e := by
  simp [createTaskFromWebhook, ht, hu, he, hf]

/-- Claim C1: with an existing mapping and no force flag,
`createTaskFromWebhook` answers "Already synced" with the previously mapped
task id, mutating neither the mapping store nor the remote service; hence
two runs of the push operation on the same unmapped item create exactly one
remote task and one mapping record, the second run being a no-op. -/
theorem push_new_item_idempotent (env : Env) (payload : WebhookPayload)
    (store : Store) (remote : RemoteState) (now now2 : Nat) (u : String)
    (hu : optNonEmpty payload.uid = some u) (ht : payload.title ≠ "")
    (hf : payload.force.getD false = false) :
    (∀ e, getSyncedItem store u = some e →
      createTaskFromWebhook env payload store remote now =
        ⟨⟨true, "Already synced", some e.googleTaskId⟩, store, remote, []⟩) ∧
    (getSyncedItem store u = none →
      (createTaskFromWebhook env payload store remote now).created.length = 1 ∧
      countKey (createTaskFromWebhook env payload store remote now).store u = 1 ∧
      createTaskFromWebhook env payload
          (createTaskFromWebhook env payload store remote now).store
          (createTaskFromWebhook env payload store remote now).remote now2 =
        ⟨⟨true, "Already synced",
            (createTaskFromWebhook env payload store remote now).response.taskId⟩,
          (createTaskFromWebhook env payload store remote now).store,
          (createTaskFromWebhook env payload store remote now).remote, []⟩) := by
  constructor
  · intro e he
    exact createTaskFromWebhook_already env payload store remote now u e ht hu he hf
  · intro hn
    have hred := createTaskFromWebhook_new env payload store remote now u ht hu hn
    rw [hred]
    have hanyf : store.any (fun p => p.1 == u) = false :=
      any_eq_false_of_getSyncedItem_none hn
    refine ⟨?_, ?_, ?_⟩
    · simp [pushCreate]
    · simp only [pushCreate]
      rw [saveSyncedItem, storePut,
        if_neg (by rw [hanyf]; exact Bool.false_ne_true),
        countKey_append_single,
        countKey_eq_zero_of_any_false hanyf]
      simp
    · simp only [pushCreate]
      have he2 := getSyncedItem_saveSyncedItem_self store
        ⟨u, (createTaskInList (findOrCreateTaskList remote (resolveListName payload)).2
              (findOrCreateTaskList remote (resolveListName payload)).1
              ⟨payload.title, optNonEmpty payload.notes, resolveDue env payload, none⟩).1,
          (findOrCreateTaskList remote (resolveListName payload)).1,
          payload.title, now, now, false⟩ now
      exact createTaskFromWebhook_already env payload _ _ now2 u _ ht hu he2 hf

/-- Witness for C1 at a concrete mapped payload. -/
theorem push_new_item_idempotent_witness :
    createTaskFromWebhook envFix payloadFix storeFix remoteFix 5 =
      ⟨⟨true, "Already synced", some "t1"⟩, storeFix, remoteFix, []⟩ :=
  (push_new_item_idempotent envFix payloadFix storeFix remoteFix 5 6 "u1"
    (by decide) (by decide) (by decide)).1 itemFix (by decide)

/-! ## Force-path lemmas -/

theorem findOrCreateTaskList_tasks (r : RemoteState) (name : String) :
    ((findOrCreateTaskList r name).2).tasks = r.tasks := by
  unfold findOrCreateTaskList
  split
  · split
    · rfl
    · rfl
  · rfl

theorem updateTaskInList_length (r : RemoteState) (lid tid : String)
    (p : TaskPatch) :
    (updateTaskInList r lid tid p).tasks.length = r.tasks.length := by
  simp [updateTaskInList]

theorem createTaskInList_length (r : RemoteState) (lid : String)
    (input : TaskInput) :
    ((createTaskInList r lid input).2).tasks.length = r.tasks.length + 1 := by
  simp [createTaskInList]

theorem updateTaskInList_status_map (r : RemoteState) (lid tid : String)
    (p : TaskPatch) (hp : p.completed = none) :
    (updateTaskInList r lid tid p).tasks.map
        (fun q => (q.1, q.2.id, q.2.status)) =
      r.tasks.map (fun q => (q.1, q.2.id, q.2.status)) := by
  simp only [updateTaskInList, List.map_map]
  apply List.map_congr_left
  intro q hq
  by_cases hc : q.1 = lid ∧ q.2.id = some tid
  · simp [hc, applyTaskPatch, hp]
  · simp [hc]

/-- Claim C6: a force re-push against an existing mapping updates the still
existing remote task in place — no task is created and the task count is
unchanged — and when the mapped remote task no longer exists, exactly one new
task is created and the mapping record is rewritten to reference its id. -/
theorem force_repush_no_duplicate (env : Env) (payload : WebhookPayload)
    (store : Store) (remote : RemoteState) (now : Nat) (u : String)
    (e : SyncedItem) (tL : String) (r1 : RemoteState)
    (ht : payload.title ≠ "") (hu : optNonEmpty payload.uid = some u)
    (he : getSyncedItem store u = some e)
    (hf : payload.force.getD false = true)
    (hpr : findOrCreateTaskList remote (resolveListName payload) = (tL, r1)) :
    (taskExistsInList r1 (if e.googleListId = "" then tL else e.googleListId)
        e.googleTaskId = true →
      (createTaskFromWebhook env payload store remote now).created = [] ∧
      (createTaskFromWebhook env payload store remote now).remote.tasks.length =
        remote.tasks.length ∧
      (createTaskFromWebhook env payload store remote now).response =
        ⟨true, "Task updated successfully", some e.googleTaskId⟩ ∧
      getSyncedItem (createTaskFromWebhook env payload store remote now).store u =
        some ⟨u, e.googleTaskId, tL, payload.title, now, now, false⟩) ∧
    (taskExistsInList r1 (if e.googleListId = "" then tL else e.googleListId)
        e.googleTaskId = false →
      (createTaskFromWebhook env payload store remote now).created =
        [r1.freshId] ∧
      (createTaskFromWebhook env payload store remote now).remote.tasks.length =
        remote.tasks.length + 1 ∧
      (createTaskFromWebhook env payload store remote now).response =
        ⟨true, "Task created successfully", some r1.freshId⟩ ∧
      getSyncedItem (createTaskFromWebhook env payload store remote now).store u =
        some ⟨u, r1.freshId, tL, payload.title, now, now, false⟩) := by
  have hred := createTaskFromWebhook_force env payload store remote now u e ht hu he hf
  have htasks : r1.tasks = remote.tasks := by
    have := findOrCreateTaskList_tasks remote (resolveListName payload)
    rw [hpr] at this
    exact this
  constructor
  · intro hex
    rw [hred]
    simp only [pushForce, hpr]
    rw [if_pos hex]
    refine ⟨rfl, ?_, rfl, ?_⟩
    · rw [updateTaskInList_length, htasks]
    · exact getSyncedItem_saveSyncedItem_self store
        ⟨u, e.googleTaskId, tL, payload.title, now, now, false⟩ now
  · intro hex
    rw [hred]
    simp only [pushForce, hpr]
    rw [if_neg (by rw [hex]; exact Bool.false_ne_true)]
    refine ⟨rfl, ?_, rfl, ?_⟩
    · rw [createTaskInList_length, htasks]
    · exact getSyncedItem_saveSyncedItem_self store
        ⟨u, r1.freshId, tL, payload.title, now, now, false⟩ now

/-- Witness for C6 at a concrete force re-push whose remote task exists. -/
theorem force_repush_no_duplicate_witness :
    (createTaskFromWebhook envFix payloadForceFix storeFix remoteFix 5).created = [] ∧
    (createTaskFromWebhook envFix payloadForceFix storeFix remoteFix 5).remote.tasks.length =
      remoteFix.tasks.length ∧
    (createTaskFromWebhook envFix payloadForceFix storeFix remoteFix 5).response =
      ⟨true, "Task updated successfully", some "t1"⟩ ∧
    getSyncedItem (createTaskFromWebhook envFix payloadForceFix storeFix remoteFix 5).store "u1" =
      some ⟨"u1", "t1", "l1", "Buy milk", 5, 5, false⟩ :=
  (force_repush_no_duplicate envFix payloadForceFix storeFix remoteFix 5 "u1"
    itemFix "l1" remoteFix (by decide) (by decide) (by decide) (by decide)
    (by decide)).1 (by decide)

/-- Counterexample to C3 as stated: force re-pushing `itemDoneFix` (stored
`completed = true`) against a remote task that still exists changes the
mapping record's stored completed state (it is reset to `false`), so the
stored completed state is not left unchanged. -/
theorem force_repush_flips_completed :
    (getSyncedItem
        (createTaskFromWebhook envFix payloadForceFix storeDoneFix remoteFix 5).store
        "u1").map SyncedItem.completed ≠
      (getSyncedItem storeDoneFix "u1").map SyncedItem.completed := by
  decide

/-- Claim C3 as amended: on a force re-push whose mapped remote task still
exists, the remote task is patched in title, notes and due only — every
remote task keeps its id and its completion status — and no task is created;
but the mapping record is overwritten whole: its stored `completed` is reset
to `false`, its list id is set to the freshly resolved target list and its
title to the payload title, with both timestamps set to the present call. -/
theorem force_repush_remote_status_frame (env : Env)
    (payload : WebhookPayload) (store : Store) (remote : RemoteState)
    (now : Nat) (u : String) (e : SyncedItem) (tL : String) (r1 : RemoteState)
    (ht : payload.title ≠ "") (hu : optNonEmpty payload.uid = some u)
    (he : getSyncedItem store u = some e)
    (hf : payload.force.getD false = true)
    (hpr : findOrCreateTaskList remote (resolveListName payload) = (tL, r1))
    (hex : taskExistsInList r1 (if e.googleListId = "" then tL else e.googleListId)
        e.googleTaskId = true) :
    (createTaskFromWebhook env payload store remote now).created = [] ∧
    (createTaskFromWebhook env payload store remote now).remote.tasks.map
        (fun q => (q.1, q.2.id, q.2.status)) =
      remote.tasks.map (fun q => (q.1, q.2.id, q.2.status)) ∧
    getSyncedItem (createTaskFromWebhook env payload store remote now).store u =
      some ⟨u, e.googleTaskId, tL, payload.title, now, now, false⟩ := by
  have hred := createTaskFromWebhook_force env payload store remote now u e ht hu he hf
  have htasks : r1.tasks = remote.tasks := by
    have := findOrCreateTaskList_tasks remote (resolveListName payload)
    rw [hpr] at this
    exact this
  rw [hred]
  simp only [pushForce, hpr]
  rw [if_pos hex]
  refine ⟨rfl, ?_, ?_⟩
  · rw [updateTaskInList_status_map _ _ _ _ rfl, htasks]
  · exact getSyncedItem_saveSyncedItem_self store
      ⟨u, e.googleTaskId, tL, payload.title, now, now, false⟩ now

/-- Witness for the amended C3 at a concrete force re-push. -/
theorem force_repush_remote_status_frame_witness :
    (createTaskFromWebhook envFix payloadForceFix storeDoneFix remoteFix 5).created = [] ∧
    (createTaskFromWebhook envFix payloadForceFix storeDoneFix remoteFix 5).remote.tasks.map
        (fun q => (q.1, q.2.id, q.2.status)) =
      remoteFix.tasks.map (fun q => (q.1, q.2.id, q.2.status)) ∧
    getSyncedItem
        (createTaskFromWebhook envFix payloadForceFix storeDoneFix remoteFix 5).store
        "u1" =
      some ⟨"u1", "t1", "l1", "Buy milk", 5, 5, false⟩ :=
  force_repush_remote_status_frame envFix payloadForceFix storeDoneFix
    remoteFix 5 "u1" itemDoneFix "l1" remoteFix (by decide) (by decide)
    (by decide) (by decide) (by decide) (by decide)

/-! ## Pull-path lemmas -/

theorem mem_foldl_closure {α β : Type} (P : β → Prop) (f : List β → α → List β)
    (hf : ∀ acc a x, x ∈ f acc a → x ∈ acc ∨ P x) :
    ∀ (l : List α) (acc : List β) (x : β), x ∈ l.foldl f acc → x ∈ acc ∨ P x := by
  intro l
  induction l with
  | nil => intro acc x hx; exact Or.inl hx
  | cons a t ih =>
    intro acc x hx
    rcases ih (f acc a) x hx with h | h
    · exact hf acc a x h
    · exact Or.inr h

theorem newTaskStep_closure (ids : List String) (lid lt : String)
    (acc : List NewTask) (t : GTask) (x : NewTask)
    (hx : x ∈ newTaskStep ids lid lt acc t) :
    x ∈ acc ∨ x.googleTaskId ∉ ids := by
  unfold newTaskStep at hx
  cases hid : optNonEmpty t.id with
  | none => rw [hid] at hx; exact Or.inl hx
  | some tid =>
    cases htt : optNonEmpty t.title with
    | none => rw [hid, htt] at hx; exact Or.inl hx
    | some tt =>
      rw [hid, htt] at hx
      dsimp only at hx
      by_cases hcont : ids.contains tid = true
      · rw [if_pos hcont] at hx; exact Or.inl hx
      · rw [if_neg hcont] at hx
        by_cases hdel : t.deleted = true
        · rw [if_pos hdel] at hx; exact Or.inl hx
        · rw [if_neg hdel] at hx
          rcases List.mem_append.mp hx with h | h
          · exact Or.inl h
          · refine Or.inr ?_
            have hxe : x = ⟨tid, lid, lt, tt, optNonEmpty t.notes,
                optNonEmpty t.due, t.status == "completed"⟩ := by
              simpa using h
            rw [hxe]
            simpa using Bool.eq_false_iff.mpr hcont

theorem newListStep_closure (ids : List String) (r : RemoteState)
    (acc : List NewTask) (l : GTaskList) (x : NewTask)
    (hx : x ∈ newListStep ids r acc l) :
    x ∈ acc ∨ x.googleTaskId ∉ ids := by
  unfold newListStep at hx
  cases hid : optNonEmpty l.id with
  | none => rw [hid] at hx; exact Or.inl hx
  | some lid =>
    cases htt : optNonEmpty l.title with
    | none => rw [hid, htt] at hx; exact Or.inl hx
    | some lt =>
      rw [hid, htt] at hx
      dsimp only at hx
      exact mem_foldl_closure (fun x => x.googleTaskId ∉ ids)
        (newTaskStep ids lid lt)
        (fun acc2 t2 x2 => newTaskStep_closure ids lid lt acc2 t2 x2)
        (listTasksInList r lid) acc x hx

/-- Claim C5: a remote task whose id already appears in the `googleTaskId`
field of any mapping record is never reported by `getNewTasks`, for every
mapping store and every remote state — hence regardless of how many passes
run and regardless of edits made to the remote task. -/
theorem pull_exclusivity (store : Store) (r : RemoteState) (nt : NewTask)
    (h : nt ∈ getNewTasks store r) :
    nt.googleTaskId ∉ store.map (fun p => p.2.googleTaskId) := by
  unfold getNewTasks at h
  rcases mem_foldl_closure
      (fun x => x.googleTaskId ∉ store.map (fun p => p.2.googleTaskId))
      (newListStep (store.map (fun p => p.2.googleTaskId)) r)
      (fun acc l x =>
        newListStep_closure (store.map (fun p => p.2.googleTaskId)) r acc l x)
      r.lists [] nt h with hmem | hP
  · exact absurd hmem (List.not_mem_nil nt)
  · exact hP

/-- Witness for C5: the fresh task `t2` reported at the fixtures has an id
unrelated to the mapped `t1`. -/
theorem pull_exclusivity_witness :
    newTaskFix ∈ getNewTasks storeFix remoteNewFix ∧
      newTaskFix.googleTaskId ∉
        storeFix.map (fun p => p.2.googleTaskId) :=
  ⟨by decide, pull_exclusivity storeFix remoteNewFix newTaskFix (by decide)⟩

theorem foldl_ext {α β : Type} (f g : β → α → β)
    (h : ∀ acc a, f acc a = g acc a) :
    ∀ (l : List α) (acc : β), l.foldl f acc = l.foldl g acc := by
  intro l
  induction l with
  | nil => intro acc; rfl
  | cons a t ih =>
    intro acc
    simp only [List.foldl_cons, h acc a, ih]

theorem foldl_filter_skip {α β : Type} (f : β → α → β) (p : α → Bool)
    (hf : ∀ acc a, p a = false → f acc a = acc) :
    ∀ (l : List α) (acc : β), (l.filter p).foldl f acc = l.foldl f acc := by
  intro l
  induction l with
  | nil => intro acc; rfl
  | cons a t ih =>
    intro acc
    by_cases hp : p a = true
    · simp only [List.filter_cons, hp, if_true, List.foldl_cons, ih]
    · have hp' : p a = false := Bool.eq_false_iff.mpr hp
      simp only [List.filter_cons, hp', Bool.false_eq_true, if_false,
        List.foldl_cons, hf acc a hp', ih]

theorem filter_keep_comm (tasks : List (String × GTask)) (lid : String) :
    ((tasks.filter (fun p => taskKeep p.2)).filter
        (fun p => p.1 == lid)).map Prod.snd =
      ((tasks.filter (fun p => p.1 == lid)).map Prod.snd).filter taskKeep := by
  induction tasks with
  | nil => rfl
  | cons a t ih =>
    by_cases hk : taskKeep a.2 = true
    · by_cases hl : a.1 = lid
      · simp [List.filter_cons, hk, hl, ih, -List.filter_filter]
      · simp [List.filter_cons, hk, hl, ih, -List.filter_filter]
    · have hk' : taskKeep a.2 = false := Bool.eq_false_iff.mpr hk
      by_cases hl : a.1 = lid
      · simp [List.filter_cons, hk', hl, ih, -List.filter_filter]
      · simp [List.filter_cons, hk', hl, ih, -List.filter_filter]

theorem listTasksInList_prune (r : RemoteState) (lid : String) :
    listTasksInList (pruneRemote r) lid =
      (listTasksInList r lid).filter taskKeep := by
  unfold listTasksInList pruneRemote
  exact filter_keep_comm r.tasks lid

theorem newTaskStep_skip (ids : List String) (lid lt : String)
    (acc : List NewTask) (t : GTask) (h : taskKeep t = false) :
    newTaskStep ids lid lt acc t = acc := by
  unfold newTaskStep
  unfold taskKeep at h
  rcases Bool.and_eq_false_iff.mp h with h1 | h1
  · cases hid : optNonEmpty t.id with
    | none => rfl
    | some tid => rw [hid] at h1; simp at h1
  · cases hid : optNonEmpty t.id with
    | none => rfl
    | some tid =>
      cases htt : optNonEmpty t.title with
      | none => rfl
      | some tt => rw [htt] at h1; simp at h1

theorem newListStep_skip (ids : List String) (r : RemoteState)
    (acc : List NewTask) (l : GTaskList) (h : listKeep l = false) :
    newListStep ids r acc l = acc := by
  unfold newListStep
  unfold listKeep at h
  rcases Bool.and_eq_false_iff.mp h with h1 | h1
  · cases hid : optNonEmpty l.id with
    | none => rfl
    | some lid => rw [hid] at h1; simp at h1
  · cases hid : optNonEmpty l.id with
    | none => rfl
    | some lid =>
      cases htt : optNonEmpty l.title with
      | none => rfl
      | some lt => rw [htt] at h1; simp at h1

theorem newListStep_prune (ids : List String) (r : RemoteState)
    (acc : List NewTask) (l : GTaskList) :
    newListStep ids (pruneRemote r) acc l = newListStep ids r acc l := by
  unfold newListStep
  cases hid : optNonEmpty l.id with
  | none => rfl
  | some lid =>
    cases htt : optNonEmpty l.title with
    | none => rfl
    | some lt =>
      dsimp only
      rw [listTasksInList_prune]
      exact foldl_filter_skip (newTaskStep ids lid lt) taskKeep
        (fun acc2 t2 h2 => newTaskStep_skip ids lid lt acc2 t2 h2)
        (listTasksInList r lid) acc

/-- Claim C9: `getNewTasks` silently skips every remote task lacking a truthy
id or title and every remote list lacking a truthy id or title — removing all
such tasks and lists from the remote state leaves its result unchanged, so
such an item is never reported as new and never imported, even though it is
unmapped and not deleted. -/
theorem pull_skips_incomplete_items (store : Store) (r : RemoteState) :
    getNewTasks store (pruneRemote r) = getNewTasks store r := by
  unfold getNewTasks
  have hlists : (pruneRemote r).lists = r.lists.filter listKeep := rfl
  rw [hlists]
  rw [foldl_ext (newListStep (store.map (fun p => p.2.googleTaskId)) (pruneRemote r))
    (newListStep (store.map (fun p => p.2.googleTaskId)) r)
    (fun acc l => newListStep_prune _ r acc l)]
  exact foldl_filter_skip _ listKeep
    (fun acc l h => newListStep_skip _ r acc l h) r.lists []

/-! ## Handler lemmas -/

theorem dispatch_status_ne_401 (env : Env) (req : HttpRequest) (store : Store)
    (r : RemoteState) (now : Nat) :
    (dispatch env req store r now).status ≠ 401 := by
  unfold dispatch
  repeat' split
  all_goals simp
  all_goals (split <;> decide)

/-- Claim C10: the handler answers 401 exactly when the request is not an
OPTIONS preflight, a webhook secret is configured (truthy) and the provided
secret (header, falling back to query) differs from it; OPTIONS requests are
answered 204 before the authentication check regardless of configuration; and
with no configured secret every non-OPTIONS request reaches the business
dispatch untouched. -/
theorem handler_auth_characterisation (env : Env) (ws : Option String)
    (req : HttpRequest) (store : Store) (r : RemoteState) (now : Nat) :
    ((handleRequest env ws req store r now).status = 401 ↔
      (req.method ≠ "OPTIONS" ∧
        ∃ s, optNonEmpty ws = some s ∧ providedSecret req ≠ some s)) ∧
    (req.method = "OPTIONS" →
      (handleRequest env ws req store r now).status = 204) ∧
    (req.method ≠ "OPTIONS" → optNonEmpty ws = none →
      handleRequest env ws req store r now = dispatch env req store r now) := by
  refine ⟨⟨?_, ?_⟩, ?_, ?_⟩
  · intro h401
    by_cases hm : req.method = "OPTIONS"
    · simp only [handleRequest, if_pos hm] at h401
      exact absurd h401 (by decide)
    · refine ⟨hm, ?_⟩
      simp only [handleRequest, if_neg hm] at h401
      cases hws : optNonEmpty ws with
      | none =>
        rw [hws] at h401
        dsimp only at h401
        exact absurd h401 (dispatch_status_ne_401 env req store r now)
      | some s =>
        rw [hws] at h401
        dsimp only at h401
        by_cases hp : providedSecret req ≠ some s
        · exact ⟨s, rfl, hp⟩
        · rw [if_neg hp] at h401
          exact absurd h401 (dispatch_status_ne_401 env req store r now)
  · rintro ⟨hm, s, hws, hp⟩
    simp only [handleRequest, if_neg hm, hws, if_pos hp]
  · intro hm
    simp only [handleRequest, if_pos hm]
  · intro hm hws
    simp only [handleRequest, if_neg hm, hws]

/-- Witness for C10: a wrong-secret POST is answered 401, a wrong-secret
OPTIONS preflight is answered 204. -/
theorem handler_auth_characterisation_witness :
    (handleRequest envFix (some "sec") reqPostFix storeFix remoteFix 5).status
        = 401 ∧
    (handleRequest envFix (some "sec") reqOptionsFix storeFix remoteFix 5).status
        = 204 :=
  ⟨(handler_auth_characterisation envFix (some "sec") reqPostFix storeFix
      remoteFix 5).1.mpr ⟨by decide, "sec", by decide, by decide⟩,
   (handler_auth_characterisation envFix (some "sec") reqOptionsFix storeFix
      remoteFix 5).2.1 (by decide)⟩

/-- Counterexample to C8 as stated: an OPTIONS preflight request whose
provided secret differs from the configured secret is answered 204, not 401,
because the preflight reply precedes the authentication check. -/
theorem unauthorized_options_not_401 :
    providedSecret reqOptionsFix ≠ some "sec" ∧
      (handleRequest envFix (some "sec") reqOptionsFix storeFix remoteFix 5).status
        ≠ 401 := by
  decide

/-- Claim C8 as amended: for every non-OPTIONS request, when a webhook secret
is configured and the provided secret differs from it, the handler answers
exactly 401 with the store and remote state untouched and nothing created —
the rejection precedes all business logic. -/
theorem unauthorized_rejected_before_logic (env : Env) (ws : Option String)
    (req : HttpRequest) (store : Store) (r : RemoteState) (now : Nat)
    (s : String) (hm : req.method ≠ "OPTIONS") (hws : optNonEmpty ws = some s)
    (hp : providedSecret req ≠ some s) :
    handleRequest env ws req store r now = ⟨401, store, r, []⟩ := by
  simp only [handleRequest, if_neg hm, hws, if_pos hp]

/-- Witness for the amended C8 at a concrete POST request. -/
theorem unauthorized_rejected_before_logic_witness :
    handleRequest envFix (some "sec") reqPostFix storeFix remoteFix 5 =
      ⟨401, storeFix, remoteFix, []⟩ :=
  unauthorized_rejected_before_logic envFix (some "sec") reqPostFix storeFix
    remoteFix 5 "sec" (by decide) (by decide) (by decide)

/-! ## Completion-reconciliation lemmas -/

theorem find?_map_modify (s : Store) (key : String)
    (f : SyncedItem → SyncedItem) :
    (s.map (fun p => if p.1 == key then (p.1, f p.2) else p)).find?
        (fun p => p.1 == key) =
      (s.find? (fun p => p.1 == key)).map (fun p => (p.1, f p.2)) := by
  induction s with
  | nil => rfl
  | cons a t ih =>
    simp only [List.map_cons]
    by_cases ha : a.1 = key
    · simp [List.find?_cons, ha, -List.find?_map]
    · simp [List.find?_cons, ha, -List.find?_map]
      simpa [-List.find?_map] using ih

theorem find?_map_modify_ne (s : Store) (key k : String)
    (f : SyncedItem → SyncedItem) (h : k ≠ key) :
    (s.map (fun p => if p.1 == key then (p.1, f p.2) else p)).find?
        (fun p => p.1 == k) =
      s.find? (fun p => p.1 == k) := by
  induction s with
  | nil => rfl
  | cons a t ih =>
    simp only [List.map_cons]
    by_cases ha : a.1 = key
    · have hak : a.1 ≠ k := by rw [ha]; exact Ne.symm h
      simp [List.find?_cons, ha, hak, Ne.symm h, -List.find?_map]
      simpa [-List.find?_map] using ih
    · by_cases hak : a.1 = k
      · simp [List.find?_cons, ha, hak, h, -List.find?_map]
      · simp [List.find?_cons, ha, hak, -List.find?_map]
        simpa [-List.find?_map] using ih

theorem getSyncedItem_update_ne (s : Store) (k : String) (b : Bool)
    (now : Nat) (uid : String) (h : uid ≠ k) :
    getSyncedItem (updateSyncedItemCompleted s k b now) uid =
      getSyncedItem s uid := by
  unfold updateSyncedItemCompleted getSyncedItem
  rw [find?_map_modify_ne s k uid
    (fun it => { it with completed := b, lastModified := now }) h]

theorem getSyncedItem_update_self (s : Store) (uid : String) (b : Bool)
    (now : Nat) (item : SyncedItem) (h : getSyncedItem s uid = some item) :
    getSyncedItem (updateSyncedItemCompleted s uid b now) uid =
      some { item with completed := b, lastModified := now } := by
  unfold updateSyncedItemCompleted getSyncedItem
  rw [find?_map_modify s uid
    (fun it => { it with completed := b, lastModified := now })]
  unfold getSyncedItem at h
  cases hfind : s.find? (fun p => p.1 == uid) with
  | none => rw [hfind] at h; exact absurd h (by simp)
  | some q =>
    rw [hfind] at h
    have hq : q.2 = item := by simpa using h
    simp [hq]

theorem googleStatusStep_fst_ne (r : RemoteState) (now : Nat)
    (acc : Store × List StatusChange) (entry : String × SyncedItem)
    (uid : String) (hne : entry.1 ≠ uid) :
    getSyncedItem (googleStatusStep r now acc entry).1 uid =
      getSyncedItem acc.1 uid := by
  unfold googleStatusStep
  split
  · rfl
  · dsimp only
    split
    · dsimp only
      exact getSyncedItem_update_ne acc.1 entry.1 _ now uid (Ne.symm hne)
    · rfl

theorem gssc_fold_ne (r : RemoteState) (now : Nat) (uid : String) :
    ∀ (entries : List (String × SyncedItem)) (acc : Store × List StatusChange),
      (∀ e ∈ entries, e.1 ≠ uid) →
      getSyncedItem ((entries.foldl (googleStatusStep r now) acc)).1 uid =
        getSyncedItem acc.1 uid := by
  intro entries
  induction entries with
  | nil => intro acc _; rfl
  | cons a t ih =>
    intro acc h
    rw [List.foldl_cons]
    calc getSyncedItem ((t.foldl (googleStatusStep r now)
            (googleStatusStep r now acc a))).1 uid
        = getSyncedItem (googleStatusStep r now acc a).1 uid :=
          ih _ (fun e he => h e (List.mem_cons_of_mem a he))
      _ = getSyncedItem acc.1 uid :=
          googleStatusStep_fst_ne r now acc a uid (h a (List.mem_cons_self a t))

theorem getSyncedItem_append_cons (pre post : Store) (uid : String)
    (item : SyncedItem) (hpre : ∀ e ∈ pre, e.1 ≠ uid) :
    getSyncedItem (pre ++ (uid, item) :: post) uid = some item := by
  unfold getSyncedItem
  rw [List.find?_append]
  have hnone : pre.find? (fun p => p.1 == uid) = none := by
    rw [List.find?_eq_none]
    intro x hx
    simpa using hpre x hx
  rw [hnone]
  simp [List.find?_cons]

theorem googleStatusStep_fst_self (r : RemoteState) (now : Nat)
    (acc : Store × List StatusChange) (uid : String) (item : SyncedItem)
    (task : GTask)
    (hT : getTask r item.googleListId item.googleTaskId = some task)
    (hdiff : (task.status == "completed") ≠ item.completed)
    (hacc : getSyncedItem acc.1 uid = some item) :
    getSyncedItem (googleStatusStep r now acc (uid, item)).1 uid =
      some { item with completed := task.status == "completed",
                       lastModified := now } := by
  unfold googleStatusStep
  dsimp only
  rw [hT]
  dsimp only
  rw [if_pos hdiff]
  exact getSyncedItem_update_self acc.1 uid _ now item hacc

theorem googleStatusStep_settled (r : RemoteState) (now2 : Nat)
    (acc : Store × List StatusChange) (uid : String) (item : SyncedItem)
    (task : GTask)
    (hT : getTask r item.googleListId item.googleTaskId = some task) :
    googleStatusStep r now2 acc
      (uid, { item with completed := task.status == "completed" }) = acc := by
  unfold googleStatusStep
  dsimp only
  rw [hT]
  dsimp only
  rw [if_neg (by simp)]

theorem updateReminderStatus_no_uid (loc : List Reminder) (u : String)
    (c : Bool) (uid : String) (l2 : List Reminder)
    (h : updateReminderStatus loc u c = some l2)
    (hloc : ∀ rm ∈ loc, rm.uid ≠ uid) : ∀ rm ∈ l2, rm.uid ≠ uid := by
  unfold updateReminderStatus at h
  by_cases hAny : loc.any (fun rm => rm.uid == u) = true
  · rw [if_pos hAny] at h
    obtain rfl : loc.map (fun rm =>
        if rm.uid == u then { rm with isCompleted := c } else rm) = l2 := by
      simpa using h
    intro rm hrm
    obtain ⟨rm0, hrm0, hfeq⟩ := List.mem_map.mp hrm
    have huid : rm.uid = rm0.uid := by
      rw [← hfeq]
      by_cases hr : rm0.uid = u
      · simp [hr]
      · simp [hr]
    rw [huid]
    exact hloc rm0 hrm0
  · rw [if_neg hAny] at h
    exact absurd h (by simp)

theorem applyGoogleChanges_no_uid (uid : String) :
    ∀ (changes : List StatusChange) (acc : List Reminder × Nat),
      (∀ rm ∈ acc.1, rm.uid ≠ uid) →
      ∀ rm ∈ (changes.foldl (fun acc change =>
          match updateReminderStatus acc.1 change.uid change.completed with
          | some l2 => (l2, acc.2 + 1)
          | none => acc) acc).1, rm.uid ≠ uid := by
  intro changes
  induction changes with
  | nil => intro acc h; exact h
  | cons c t ih =>
    intro acc h
    rw [List.foldl_cons]
    apply ih
    cases hup : updateReminderStatus acc.1 c.uid c.completed with
    | none => simpa using h
    | some l2 =>
      dsimp only
      exact updateReminderStatus_no_uid acc.1 c.uid c.completed uid l2 hup h

/-- Counterexample to C2 as stated: a mapping record whose remote completion
state differs from the stored flag while the local item does not exist (the
local store is empty) — after the remote-authoritative phase the mapping
record HAS been mutated (its stored `completed` now matches the remote),
contradicting "the mapping record is not mutated". -/
theorem completion_mismatch_mutates_mapping :
    getTask remoteFix "l1" "t1" = some taskFix ∧
    (taskFix.status == "completed") ≠ itemFix.completed ∧
    (pullCompletionPhase storeFix remoteFix [] 7).1 ≠ storeFix := by
  decide

/-- Claim C2 as amended: in the remote-authoritative completion phase, a
mapping record whose remote completion state differs from the stored flag is
updated to the remote value by the server-side detection pass before the
local application; when the local item cannot be found the local update is
logged and skipped and the local store keeps lacking the item, but the
mapping now carries the remote value, so a later detection pass sees no
divergence for that record and does not retry. -/
theorem completion_mismatch_local_missing (store : Store) (r : RemoteState)
    (loc : List Reminder) (now : Nat) (uid : String) (item : SyncedItem)
    (task : GTask) (hN : (store.map Prod.fst).Nodup)
    (hmem : (uid, item) ∈ store)
    (hT : getTask r item.googleListId item.googleTaskId = some task)
    (hdiff : (task.status == "completed") ≠ item.completed)
    (hloc : ∀ rm ∈ loc, rm.uid ≠ uid) :
    getSyncedItem (pullCompletionPhase store r loc now).1 uid =
      some { item with completed := task.status == "completed",
                       lastModified := now } ∧
    (∀ rm ∈ (pullCompletionPhase store r loc now).2.1, rm.uid ≠ uid) ∧
    (∀ (acc : Store × List StatusChange) (now2 : Nat),
      googleStatusStep r now2 acc
        (uid, { item with completed := task.status == "completed",
                          lastModified := now }) = acc) := by
  obtain ⟨pre, post, heq⟩ := List.append_of_mem hmem
  subst heq
  have hN2 : (uid :: (pre.map Prod.fst ++ post.map Prod.fst)).Nodup := by
    rw [List.map_append, List.map_cons] at hN
    exact List.nodup_middle.mp hN
  have hnotin := (List.nodup_cons.mp hN2).1
  have hpre : ∀ e ∈ pre, e.1 ≠ uid := by
    intro e he hcon
    exact hnotin (List.mem_append.mpr (Or.inl (hcon ▸ List.mem_map_of_mem Prod.fst he)))
  have hpost : ∀ e ∈ post, e.1 ≠ uid := by
    intro e he hcon
    exact hnotin (List.mem_append.mpr (Or.inr (hcon ▸ List.mem_map_of_mem Prod.fst he)))
  have hget : getSyncedItem (pre ++ (uid, item) :: post) uid = some item :=
    getSyncedItem_append_cons pre post uid item hpre
  refine ⟨?_, ?_, ?_⟩
  · show getSyncedItem (getGoogleStatusChanges (pre ++ (uid, item) :: post) r now).1 uid = _
    unfold getGoogleStatusChanges
    rw [List.foldl_append, List.foldl_cons]
    rw [gssc_fold_ne r now uid post _ hpost]
    have haccpre : getSyncedItem
        (pre.foldl (googleStatusStep r now) (pre ++ (uid, item) :: post, [])).1 uid =
        some item := by
      rw [gssc_fold_ne r now uid pre _ hpre]
      exact hget
    exact googleStatusStep_fst_self r now _ uid item task hT hdiff haccpre
  · show ∀ rm ∈ (applyGoogleChanges loc
        (getGoogleStatusChanges (pre ++ (uid, item) :: post) r now).2).1,
      rm.uid ≠ uid
    exact applyGoogleChanges_no_uid uid _ (loc, 0) hloc
  · intro acc now2
    exact googleStatusStep_settled r now2 acc uid
      { item with lastModified := now } task hT

/-- Witness for the amended C2 at the fixtures: the record is rewritten to
the remote value and the settled record triggers nothing on a later pass. -/
theorem completion_mismatch_local_missing_witness :
    getSyncedItem (pullCompletionPhase storeFix remoteFix [] 7).1 "u1" =
      some ⟨"u1", "t1", "l1", "Buy milk", 0, 7, true⟩ ∧
    googleStatusStep remoteFix 9 (storeFix, [])
      ("u1", ⟨"u1", "t1", "l1", "Buy milk", 0, 7, true⟩) = (storeFix, []) := by
  have h := completion_mismatch_local_missing storeFix remoteFix [] 7 "u1"
    itemFix taskFix (by decide) (by decide) (by decide) (by decide)
    (by intro rm hrm; exact absurd hrm (List.not_mem_nil rm))
  exact ⟨h.1, h.2.2 (storeFix, []) 9⟩

/-! ## Pass-driver lemmas -/

theorem pushStep_skip_imported (env : Env) (imported : List String)
    (force : Bool) (now : Nat) (acc : PushAcc) (rm : Reminder) (u : String)
    (hu : u ∈ imported) (hacc : u ∉ acc.pushed) :
    u ∉ (pushStep env imported force now acc rm).pushed := by
  unfold pushStep
  split
  · exact hacc
  · split
    · exact hacc
    · dsimp only
      intro hmem2
      rcases List.mem_append.mp hmem2 with hina | hone
      · exact hacc hina
      · have heq : u = rm.uid := by simpa using hone
        rename_i hnotin _
        exact hnotin (heq ▸ hu)

theorem pushPhase_skip_imported (env : Env) (loc : List Reminder)
    (imported : List String) (force : Bool) (server : Store)
    (r : RemoteState) (st : SyncStateMap) (now : Nat) (u : String)
    (hu : u ∈ imported) :
    u ∉ (pushPhase env loc imported force server r st now).pushed := by
  unfold pushPhase
  have hgen : ∀ (l : List Reminder) (acc : PushAcc), u ∉ acc.pushed →
      u ∉ (l.foldl (pushStep env imported force now) acc).pushed := by
    intro l
    induction l with
    | nil => intro acc h; exact h
    | cons a t ih =>
      intro acc h
      rw [List.foldl_cons]
      exact ih _ (pushStep_skip_imported env imported force now acc a u hu h)
  exact hgen _ _ (by simp)

/-- Claim C4: a full pass executes its phases in the fixed order
(c) pull completion changes, (d) push completion changes, (b) pull new
items, (a) push new items; and an item imported from remote in phase (b) of
a pass is never pushed in phase (a) of the same pass, enforced by the
same-pass exclusion set `importedUIDs`. -/
theorem pass_phase_order_non_ping_pong (inp : PassInput) :
    (runPass inp).trace =
      [Phase.pullCompletion, Phase.pushCompletion, Phase.pullNew,
       Phase.pushNew] ∧
    ∀ u ∈ (runPass inp).importedUIDs, u ∉ (runPass inp).pushedUIDs := by
  constructor
  · rfl
  · intro u hu
    simp only [runPass] at hu ⊢
    exact pushPhase_skip_imported _ _ _ _ _ _ _ _ u hu

/-- Witness for C4: the task imported from the fixtures is not pushed back
in the same pass. -/
theorem pass_phase_order_non_ping_pong_witness :
    (runPass passFix).trace =
      [Phase.pullCompletion, Phase.pushCompletion, Phase.pullNew,
       Phase.pushNew] ∧
    "r0" ∈ (runPass passFix).importedUIDs ∧
    "r0" ∉ (runPass passFix).pushedUIDs :=
  ⟨(pass_phase_order_non_ping_pong passFix).1, by decide,
   (pass_phase_order_non_ping_pong passFix).2 "r0" (by decide)⟩

end SyncTasks
